import Mathlib

/-!
Shallow embedding of gnbsim's NAS codec (package nas, file encoding/nas/nas.go)
and proofs about it.

Conventions of the embedding:

* Go bytes are `Nat` values (callers supply values below 256; every function
  here is total on all of `Nat`).
* Go byte slices are `List Nat`.  The buffer handed to `Decode` is assumed to
  satisfy `cap = len`; every reslicing `(*pdu)[k:]` preserves that invariant,
  and a sub-slice such as `autn := (*pdu)[:autnlen]` then has capacity equal
  to the length of the residual buffer, which `decAuthParamAUTN` reflects.
* A Go runtime abort (slice bounds violation, index out of range) is modelled
  as `none`; the package contains no `recover`, so such an abort propagates
  out of `Decode` to the caller.  `Decode` itself returns only the message
  type — the package defines no error results.
* The Milenage primitive (github.com/wmnsk/milenage) is an external
  collaborator and enters the model as an environment of uninterpreted total
  functions (`MilenageEnv`).
* `crypto/sha256`, `crypto/hmac`, `encoding/binary` and `encoding/hex` from
  the Go standard library are implemented concretely below.
* The `length` parameter of `Decode` is decremented by the source but never
  consulted, so the model omits it.
-/

/-! ## SHA-256 (crypto/sha256) over byte lists -/

/-- Truncation to a 32-bit word, the wrap-around of Go's `uint32` arithmetic. -/
def w32 (n : Nat) : Nat := n % 4294967296

/-- 32-bit rotate right. -/
def rotr32 (k n : Nat) : Nat := w32 ((n >>> k) ||| (n <<< (32 - k)))

/-- SHA-256 choice function; complement realized as xor with the all-ones word. -/
def shaCh (x y z : Nat) : Nat := (x &&& y) ^^^ ((x ^^^ 4294967295) &&& z)

/-- SHA-256 majority function. -/
def shaMaj (x y z : Nat) : Nat := (x &&& y) ^^^ (x &&& z) ^^^ (y &&& z)

/-- SHA-256 big sigma 0. -/
def bigSigma0 (x : Nat) : Nat := rotr32 2 x ^^^ rotr32 13 x ^^^ rotr32 22 x

/-- SHA-256 big sigma 1. -/
def bigSigma1 (x : Nat) : Nat := rotr32 6 x ^^^ rotr32 11 x ^^^ rotr32 25 x

/-- SHA-256 small sigma 0. -/
def smallSigma0 (x : Nat) : Nat := rotr32 7 x ^^^ rotr32 18 x ^^^ (x >>> 3)

/-- SHA-256 small sigma 1. -/
def smallSigma1 (x : Nat) : Nat := rotr32 17 x ^^^ rotr32 19 x ^^^ (x >>> 10)

/-- The 64 SHA-256 round constants (FIPS 180-4, here in decimal). -/
def sha256K : List Nat :=
  [1116352408, 1899447441, 3049323471, 3921009573, 961987163,
   1508970993, 2453635748, 2870763221, 3624381080, 310598401,
   607225278, 1426881987, 1925078388, 2162078206, 2614888103,
   3248222580, 3835390401, 4022224774, 264347078, 604807628,
   770255983, 1249150122, 1555081692, 1996064986, 2554220882,
   2821834349, 2952996808, 3210313671, 3336571891, 3584528711,
   113926993, 338241895, 666307205, 773529912, 1294757372,
   1396182291, 1695183700, 1986661051, 2177026350, 2456956037,
   2730485921, 2820302411, 3259730800, 3345764771, 3516065817,
   3600352804, 4094571909, 275423344, 430227734, 506948616,
   659060556, 883997877, 958139571, 1322822218, 1537002063,
   1747873779, 1955562222, 2024104815, 2227730452, 2361852424,
   2428436474, 2756734187, 3204031479, 3329325298]

/-- The eight SHA-256 working registers / chaining values. -/
structure Hash8 where
  a : Nat
  b : Nat
  c : Nat
  d : Nat
  e : Nat
  f : Nat
  g : Nat
  h : Nat
deriving Repr, DecidableEq

/-- SHA-256 initial chaining value (FIPS 180-4, in decimal). -/
def sha256Init : Hash8 :=
  ⟨1779033703, 3144134277, 1013904242, 2773480762,
   1359893119, 2600822924, 528734635, 1541459225⟩

/-- Big-endian 32-bit words from bytes, four at a time (a trailing fragment of
fewer than four bytes is dropped; blocks fed in are always multiples of 4). -/
def bytesToWords : List Nat → List Nat
  | a :: b :: c :: d :: rest => (((a * 256 + b) * 256 + c) * 256 + d) :: bytesToWords rest
  | _ => []

/-- Extend a 16-word block schedule to the 64 words used by the rounds. -/
def extendSchedule (ws : List Nat) : List Nat :=
  if h : ws.length < 64 then
    let i := ws.length
    extendSchedule (ws ++ [w32 (smallSigma1 (ws.getD (i - 2) 0) + ws.getD (i - 7) 0 +
      smallSigma0 (ws.getD (i - 15) 0) + ws.getD (i - 16) 0)])
  else ws
termination_by 64 - ws.length
decreasing_by
  simp only [List.length_append, List.length_cons, List.length_nil]
  omega

/-- One SHA-256 round, consuming a (round constant, schedule word) pair. -/
def shaRound (st : Hash8) (kw : Nat × Nat) : Hash8 :=
  let t1 := w32 (st.h + bigSigma1 st.e + shaCh st.e st.f st.g + kw.1 + kw.2)
  let t2 := w32 (bigSigma0 st.a + shaMaj st.a st.b st.c)
  ⟨w32 (t1 + t2), st.a, st.b, st.c, w32 (st.d + t1), st.e, st.f, st.g⟩

/-- SHA-256 compression of one 64-byte block into the chaining value. -/
def compressBlock (st : Hash8) (block : List Nat) : Hash8 :=
  let ws := extendSchedule (bytesToWords block)
  let r := (sha256K.zip ws).foldl shaRound st
  ⟨w32 (st.a + r.a), w32 (st.b + r.b), w32 (st.c + r.c), w32 (st.d + r.d),
   w32 (st.e + r.e), w32 (st.f + r.f), w32 (st.g + r.g), w32 (st.h + r.h)⟩

/-- Split a byte list into 64-byte chunks. -/
def chunks64 (l : List Nat) : List (List Nat) :=
  if h : l = [] then [] else l.take 64 :: chunks64 (l.drop 64)
termination_by l.length
decreasing_by
  simp only [List.length_drop]
  have : 0 < l.length := List.length_pos.mpr h
  omega

/-- Big-endian bytes of a 32-bit word. -/
def be32 (n : Nat) : List Nat :=
  [n / 16777216 % 256, n / 65536 % 256, n / 256 % 256, n % 256]

/-- Big-endian bytes of a 64-bit word (`binary.BigEndian.PutUint64`). -/
def be64 (n : Nat) : List Nat :=
  [n / 72057594037927936 % 256, n / 281474976710656 % 256, n / 1099511627776 % 256,
   n / 4294967296 % 256, n / 16777216 % 256, n / 65536 % 256, n / 256 % 256, n % 256]

/-- Big-endian bytes of a 16-bit word (`binary.BigEndian.PutUint16` after the
Go conversion `uint16 n`). -/
def be16 (n : Nat) : List Nat := [n % 65536 / 256, n % 256]

/-- The digest bytes of a final chaining value. -/
def digestOf (st : Hash8) : List Nat :=
  be32 st.a ++ be32 st.b ++ be32 st.c ++ be32 st.d ++ be32 st.e ++ be32 st.f ++ be32 st.g ++ be32 st.h

/-- SHA-256 padding: 0x80, zeros to 56 mod 64, then the 64-bit bit length. -/
def sha256pad (msg : List Nat) : List Nat :=
  msg ++ 0x80 :: (List.replicate ((119 - msg.length % 64) % 64) 0 ++ be64 (8 * msg.length))

/-- SHA-256 of a byte list. -/
def sha256 (msg : List Nat) : List Nat :=
  digestOf ((chunks64 (sha256pad msg)).foldl compressBlock sha256Init)

/-- HMAC-SHA-256 (`hmac.New(sha256.New, key)` then `Write`/`Sum`): keys longer
than the 64-byte block are first hashed, the key is zero-padded to the block
size, and the nested hash uses the 0x36/0x5c pads. -/
def hmacSHA256 (key msg : List Nat) : List Nat :=
  let k0 := if 64 < key.length then sha256 key else key
  let kp := k0 ++ List.replicate (64 - k0.length) 0
  sha256 ((kp.map fun b => b ^^^ 0x5c) ++ sha256 ((kp.map fun b => b ^^^ 0x36) ++ msg))

/-! ## Go formatting and hex helpers -/

/-- Bytes of an ASCII character list (the Go conversion `[]byte(str)` for the
ASCII strings this package formats). -/
def charBytes (cs : List Char) : List Nat := cs.map Char.toNat

/-- Go's `fmt.Sprintf("%03d", n)` for an `int`: minimum width 3, zero padding,
with the padding placed after the sign for negative values. -/
def fmt03d (n : Int) : List Char :=
  if n < 0 then
    '-' :: (List.replicate (2 - (Nat.toDigits 10 n.natAbs).length) '0' ++ Nat.toDigits 10 n.natAbs)
  else
    List.replicate (3 - (Nat.toDigits 10 n.toNat).length) '0' ++ Nat.toDigits 10 n.toNat

/-- The characters of `fmt.Sprintf("5G:mnc%03d.mcc%03d.3gppnetwork.org", mnc, mcc)`. -/
def sprintf5GSNN (mnc mcc : Int) : List Char :=
  "5G:mnc".data ++ fmt03d mnc ++ ".mcc".data ++ fmt03d mcc ++ ".3gppnetwork.org".data

/-- Value of one hexadecimal digit character, `none` for a non-digit. -/
def hexDigitVal (c : Char) : Option Nat :=
  if '0' ≤ c ∧ c ≤ '9' then some (c.toNat - '0'.toNat)
  else if 'a' ≤ c ∧ c ≤ 'f' then some (c.toNat - 'a'.toNat + 10)
  else if 'A' ≤ c ∧ c ≤ 'F' then some (c.toNat - 'A'.toNat + 10)
  else none

/-- Pairwise hex decoding; on an invalid digit or odd tail it stops with the
bytes decoded so far, matching `hex.DecodeString` whose error the source
discards (`k, _ := hex.DecodeString(...)`). -/
def hexDecodeAux : List Char → List Nat
  | c1 :: c2 :: rest =>
    match hexDigitVal c1, hexDigitVal c2 with
    | some hi, some lo => (16 * hi + lo) :: hexDecodeAux rest
    | _, _ => []
  | _ => []

/-- `hex.DecodeString` with the error ignored. -/
def hexDecode (s : String) : List Nat := hexDecodeAux s.data

/-! ## RES* derivation (TS 33.501 A.4), function `ComputeRESstar` -/

/-- `ComputeRESstar(mcc, mnc int, rand, res, ck, ik []byte) []byte`:
S = FC 0x6b ‖ P0 ‖ L0 ‖ rand ‖ L1 ‖ res ‖ L2 with key CK ‖ IK, then the
HMAC-SHA-256 output truncated to its last 16 bytes (`resstar[n-16:]`). -/
def ComputeRESstar (mcc mnc : Int) (rand res ck ik : List Nat) : List Nat :=
  let p0 := charBytes (sprintf5GSNN mnc mcc)
  let s := [0x6b] ++ p0 ++ be16 p0.length ++ (rand ++ be16 rand.length) ++ (res ++ be16 res.length)
  let k := ck ++ ik
  let mac := hmacSHA256 k s
  mac.drop (mac.length - 16)

/-! ## Specification-side RES* definitions (for the refinement claim)

These definitions follow the wording of the specification, section 4.3
(RES*/KDF), not the source: P0 is the ASCII serving-network identifier with
mnc and mcc zero-padded to 3 decimal digits, each Li is the big-endian
16-bit length of the preceding parameter, the key is CK ‖ IK, and the output
is the least-significant 16 bytes (bytes [len-16:len)) of the HMAC. -/

/-- A nonnegative number zero-padded to at least 3 decimal digits, as the
specification words the `<3-digit>` fields of the serving-network name. -/
def pad3 (n : Nat) : List Char :=
  List.replicate (3 - (Nat.toDigits 10 n).length) '0' ++ Nat.toDigits 10 n

/-- Spec wording: the ASCII serving-network identifier
`5G:mnc<3-digit mnc>.mcc<3-digit mcc>.3gppnetwork.org`. -/
def specServingNetworkName (mcc mnc : Nat) : List Nat :=
  charBytes ("5G:mnc".data ++ pad3 mnc ++ ".mcc".data ++ pad3 mcc ++ ".3gppnetwork.org".data)

/-- Spec wording: the least-significant `n` bytes of a byte string, i.e.
bytes [len-n:len). -/
def lastNBytes (n : Nat) (l : List Nat) : List Nat := l.drop (l.length - n)

/-- Spec wording: S = FC(0x6B) ‖ P0 ‖ L0 ‖ RAND ‖ L1 ‖ RES ‖ L2. -/
def specSInput (mcc mnc : Nat) (rand res : List Nat) : List Nat :=
  0x6b :: (specServingNetworkName mcc mnc ++ be16 (specServingNetworkName mcc mnc).length
    ++ rand ++ be16 rand.length ++ res ++ be16 res.length)

/-- Spec wording: HMAC-SHA-256(CK ‖ IK, S) truncated to its least-significant
16 bytes. -/
def specRESstar (mcc mnc : Nat) (rand res ck ik : List Nat) : List Nat :=
  lastNBytes 16 (hmacSHA256 (ck ++ ik) (specSInput mcc mnc rand res))

/-! ## Data model: UE context and authentication parameters -/

/-- Struct `AuthParam`: long-term key and OPc as hex strings from the UE
profile, plus the byte fields populated while decoding an Authentication
Request. -/
structure AuthParam where
  K : String
  OPc : String
  rand : List Nat
  autn : List Nat
  seqxorak : List Nat
  amf : List Nat
  mac : List Nat
  RESstar : List Nat
deriving Repr, DecidableEq

/-- Struct `UE` (the fields the modelled operations read or write; the debug
indentation is diagnostic-only and omitted). `securityHeaderParsed` is the
field `ue.state.securityHeaderParsed`. -/
structure UE where
  MSIN : String
  MCC : Int
  MNC : Int
  RoutingIndicator : Nat
  ProtectionScheme : String
  AuthParam : AuthParam
  securityHeaderParsed : Bool
deriving Repr, DecidableEq

/-- Outputs of the Milenage f2–f5 functions (`m.F2345()`), as read by the
source: session keys CK and IK, anonymity key AK, and response RES. -/
structure Mil2345Out where
  CK : List Nat
  IK : List Nat
  AK : List Nat
  RES : List Nat

/-- The external Milenage collaborator: `F2345 k opc rand amf` yields the
f2–f5 outputs, `F1 k opc rand amf sqn` yields the network MAC (MACA). -/
structure MilenageEnv where
  F2345 : List Nat → List Nat → List Nat → Nat → Mil2345Out
  F1 : List Nat → List Nat → List Nat → Nat → List Nat → List Nat

/-! ## Per-IE decoders (9.11.3.x) -/

/-- `decIMEISVRequest`: read one value byte and advance past it. -/
def decIMEISVRequest (st : AuthParam) (pdu : List Nat) : Option (AuthParam × List Nat) :=
  match pdu with
  | [] => none
  | _ :: rest => some (st, rest)

/-- `decngKSI`: read the one-byte key set identifier. -/
def decngKSI (st : AuthParam) (pdu : List Nat) : Option (AuthParam × List Nat) :=
  match pdu with
  | [] => none
  | _ :: rest => some (st, rest)

/-- `decABBA`: a length octet followed by that many value bytes. -/
def decABBA (st : AuthParam) (pdu : List Nat) : Option (AuthParam × List Nat) :=
  match pdu with
  | [] => none
  | l :: rest => if l ≤ rest.length then some (st, rest.drop l) else none

/-- `decNASSecurityAlgorithms`: read the one-byte algorithm selector. -/
def decNASSecurityAlgorithms (st : AuthParam) (pdu : List Nat) : Option (AuthParam × List Nat) :=
  match pdu with
  | [] => none
  | _ :: rest => some (st, rest)

/-- `decUESecurityCapability`: a length octet followed by that many value
bytes (the capability bytes are printed, not stored). -/
def decUESecurityCapability (st : AuthParam) (pdu : List Nat) : Option (AuthParam × List Nat) :=
  match pdu with
  | [] => none
  | l :: rest => if l ≤ rest.length then some (st, rest.drop l) else none

/-- `decAuthParamAUTN`: a length octet `autnlen`, then
`autn := (*pdu)[:autnlen]` and the splits `autn[:6]`, `autn[6:8]`,
`autn[8:16]`.  Under the `cap = len` convention for the top-level buffer,
`autn` has capacity `rest.length`, so the three splits are in bounds exactly
when the residual buffer holds at least 16 bytes, and they read from the
underlying residual buffer (observable when `autnlen < 16`). -/
def decAuthParamAUTN (st : AuthParam) (pdu : List Nat) : Option (AuthParam × List Nat) :=
  match pdu with
  | [] => none
  | l :: rest =>
    if l ≤ rest.length ∧ 16 ≤ rest.length then
      some ({ st with autn := rest.take l,
                      seqxorak := rest.take 6,
                      amf := (rest.drop 6).take 2,
                      mac := (rest.drop 8).take 8 }, rest.drop l)
    else none

/-- `decAuthParamRAND`: the fixed 16-byte RAND value (`(*pdu)[:randlen]`
with `randlen = 16`). -/
def decAuthParamRAND (st : AuthParam) (pdu : List Nat) : Option (AuthParam × List Nat) :=
  if 16 ≤ pdu.length then some ({ st with rand := pdu.take 16 }, pdu.drop 16) else none

/-! ## Information-element dispatch loop (`decInformationElement`) -/

/-- Whether `ieStr[iei]` is nonempty, i.e. the identifier is in the IE string
map (0xe, 0x10, 0x20, 0x21, 0x2d, 0x2e, 0x36, 0xff). -/
def ieiKnown (iei : Nat) : Bool :=
  iei = 0xe || iei = 0x10 || iei = 0x20 || iei = 0x21 ||
  iei = 0x2d || iei = 0x2e || iei = 0x36 || iei = 0xff

/-- The normalization `if ieStr[iei] == "" { iei = 0xff }` followed by the
switch of `decInformationElement`: IMEISV request, AUTN and RAND have decode
routines, the additional-security-information case consumes nothing, and
every other identifier discards the remaining buffer (`*pdu = []byte{}`). -/
def dispatchIE (iei0 : Nat) (st : AuthParam) (pdu : List Nat) : Option (AuthParam × List Nat) :=
  let iei := if ieiKnown iei0 then iei0 else 0xff
  if iei = 0xe then decIMEISVRequest st pdu
  else if iei = 0x20 then decAuthParamAUTN st pdu
  else if iei = 0x21 then decAuthParamRAND st pdu
  else if iei = 0x36 then some (st, pdu)
  else some (st, ([] : List Nat))

/-- One iteration of the `decInformationElement` loop body: read the tag
byte; a set top bit means a compact (type 1) tag whose identifier is the high
nibble and whose low nibble is masked back into the buffer in place; a plain
tag advances one byte.  Then dispatch. -/
def decIEStep (st : AuthParam) (pdu : List Nat) : Option (AuthParam × List Nat) :=
  match pdu with
  | [] => none
  | b :: rest =>
    if b &&& 0x80 = 0x80 then dispatchIE (b >>> 4) st ((b &&& 0xf) :: rest)
    else dispatchIE b st rest

/-- The `for len(*pdu) > 0` loop of `decInformationElement`, with explicit
iteration budget.  `decInformationElement` runs it with budget equal to the
buffer length; since every iteration strictly shortens the buffer (theorem
`decIEStep_consume` below), the budget never runs out before the buffer is
empty, so the zero-budget base case is reached only with an empty buffer and
agrees with the loop exit. -/
def decIELoop : Nat → AuthParam → List Nat → Option (AuthParam × List Nat)
  | 0, st, pdu => some (st, pdu)
  | fuel + 1, st, pdu =>
    if pdu = [] then some (st, pdu)
    else
      match decIEStep st pdu with
      | none => none
      | some (st', pdu') => decIELoop fuel st' pdu'

/-- `decInformationElement`: loop over the residual buffer. -/
def decInformationElement (st : AuthParam) (pdu : List Nat) : Option (AuthParam × List Nat) :=
  decIELoop pdu.length st pdu

/-! ## Message decoders -/

/-- `decAuthenticationRequest` (8.2.1): ngKSI, ABBA, the IE loop, then the
authentication-vector engine: decode K and OPc from hex, read the 2-byte AMF
big-endian (`binary.BigEndian.Uint16`, an abort when fewer than 2 bytes are
present), run F2345, recover SQN as SEQ⊕AK xor AK (the loop writes into the
6-byte zero-initialized SQN), run F1, and compare the received MAC with the
computed MACA.  On mismatch it returns with no RES* and no error indication;
on match it stores RES*. -/
def decAuthenticationRequest (env : MilenageEnv) (ue : UE) (pdu : List Nat) :
    Option (UE × List Nat) :=
  match decngKSI ue.AuthParam pdu with
  | none => none
  | some (st1, pdu1) =>
  match decABBA st1 pdu1 with
  | none => none
  | some (st2, pdu2) =>
  match decInformationElement st2 pdu2 with
  | none => none
  | some (st, pdu3) =>
    let k := hexDecode st.K
    let opc := hexDecode st.OPc
    match st.amf with
    | a1 :: a2 :: _ =>
      let amfVal := a1 * 256 + a2
      let m := env.F2345 k opc st.rand amfVal
      let sqn := List.zipWith Nat.xor st.seqxorak m.AK ++
        List.replicate (6 - st.seqxorak.length) 0
      let maca := env.F1 k opc st.rand amfVal sqn
      if st.mac = maca then
        some ({ ue with AuthParam :=
          { st with RESstar := ComputeRESstar ue.MCC ue.MNC st.rand m.RES m.CK m.IK } }, pdu3)
      else
        some ({ ue with AuthParam := st }, pdu3)
    | _ => none

/-- `decSecurityModeCommand` (8.2.25): algorithm selector, ngKSI, replayed UE
security capability, then the IE loop. -/
def decSecurityModeCommand (st : AuthParam) (pdu : List Nat) : Option (AuthParam × List Nat) :=
  match decNASSecurityAlgorithms st pdu with
  | none => none
  | some (st1, pdu1) =>
  match decngKSI st1 pdu1 with
  | none => none
  | some (st2, pdu2) =>
  match decUESecurityCapability st2 pdu2 with
  | none => none
  | some (st3, pdu3) => decInformationElement st3 pdu3

/-- The straight-line tail of `Decode` after the security-header branch
(source lines reading the message type, dispatching on it, and clearing
`securityHeaderParsed` before returning the message type). -/
def decodeBody (env : MilenageEnv) (ue : UE) (pdu : List Nat) :
    Option (Nat × UE × List Nat) :=
  match pdu with
  | [] => none
  | mt :: rest =>
    let r : Option (UE × List Nat) :=
      if mt = 0x56 then decAuthenticationRequest env ue rest
      else if mt = 0x5d then
        match decSecurityModeCommand ue.AuthParam rest with
        | none => none
        | some (st, rest') => some ({ ue with AuthParam := st }, rest')
      else some (ue, rest)
    match r with
    | none => none
    | some (ue', rest') => some (mt, { ue' with securityHeaderParsed := false }, rest')

/-- `Decode`: read EPD and security-header bytes; when the header is
non-plain and the wrapper has not yet been stripped, consume the 4-byte MAC
and 1-byte sequence number, set `securityHeaderParsed`, and recurse; the
result of the recursive call is returned directly.  Otherwise fall through to
the message-type dispatch (`decodeBody`). -/
def Decode (env : MilenageEnv) (ue : UE) (pdu : List Nat) : Option (Nat × UE × List Nat) :=
  match pdu with
  | _ :: s :: rest =>
    if s ≠ 0 ∧ ue.securityHeaderParsed = false then
      match rest with
      | _ :: _ :: _ :: _ :: _ :: rest2 =>
        Decode env { ue with securityHeaderParsed := true } rest2
      | _ => none
    else decodeBody env ue rest
  | _ => none

/-! ## Encoders -/

/-- The loop `for i, v := range src { dst[i] = v }` writing `src` over the
front of `dst`: an index abort (`none`) when `src` is longer than `dst`. -/
def copyInto : List Nat → List Nat → Option (List Nat)
  | dst, [] => some dst
  | [], _ :: _ => none
  | _ :: ds, v :: ss =>
    match copyInto ds ss with
    | none => none
    | some tail => some (v :: tail)

/-- `encAuthParamRes`: copy RES* into the zero-initialized 16-byte array
`res.resstar`, set `res.length = len(res.resstar)` (always 16), and serialize
the struct field-by-field big-endian: iei, length, value bytes. -/
def encAuthParamRes (ue : UE) : Option (List Nat) :=
  match copyInto (List.replicate 16 0) ue.AuthParam.RESstar with
  | none => none
  | some arr => some (0x2d :: arr.length :: arr)

/-- `MakeAuthenticationResponse` (8.2.2): the plain mobility-management
header (EPD 0x7e, security header 0, message type 0x57) followed by the
serialized RES* IE. -/
def MakeAuthenticationResponse (ue : UE) : Option (List Nat) :=
  match encAuthParamRes ue with
  | none => none
  | some ie => some ([0x7e, 0x00, 0x57] ++ ie)

/-! ## Concrete fixtures used by the closed theorems -/

/-- A concrete Milenage environment: every derived quantity is all-zero
bytes of the correct width. -/
def milEnv0 : MilenageEnv where
  F2345 := fun _ _ _ _ =>
    { CK := List.replicate 16 0, IK := List.replicate 16 0,
      AK := List.replicate 6 0, RES := List.replicate 16 0 }
  F1 := fun _ _ _ _ _ => List.replicate 8 0

/-- Authentication parameters before any decoding. -/
def authParam0 : AuthParam where
  K := ""
  OPc := ""
  rand := []
  autn := []
  seqxorak := []
  amf := []
  mac := []
  RESstar := []

/-- A fresh UE context. -/
def ue0 : UE where
  MSIN := ""
  MCC := 1
  MNC := 1
  RoutingIndicator := 0
  ProtectionScheme := "null"
  AuthParam := authParam0
  securityHeaderParsed := false

/-- An AUTN value whose MAC bytes [1,…,8] differ from the all-zero MACA that
`milEnv0` computes. -/
def autnMismatch : List Nat := [0, 0, 0, 0, 0, 0, 0, 0, 1, 2, 3, 4, 5, 6, 7, 8]

/-- A plain Authentication Request PDU: header, ngKSI 0, empty ABBA, an AUTN
IE carrying `autnMismatch`, and a RAND IE of sixteen 9-bytes. -/
def pduAuthReqBadMac : List Nat :=
  [0x7e, 0x00, 0x56, 0x00, 0x00] ++ (0x20 :: 16 :: autnMismatch) ++
    (0x21 :: List.replicate 16 9)

/-- The UE context after decoding `pduAuthReqBadMac`: the IE fields are
populated, but RES* is untouched. -/
def ue1 : UE :=
  { ue0 with AuthParam :=
    { authParam0 with
        rand := List.replicate 16 9
        autn := autnMismatch
        seqxorak := [0, 0, 0, 0, 0, 0]
        amf := [0, 0]
        mac := [1, 2, 3, 4, 5, 6, 7, 8] } }

/-- An Authentication Request PDU whose RAND IE is followed by only one byte
where 16 are required. -/
def pduShortRand : List Nat := [0x7e, 0x00, 0x56, 0x00, 0x00, 0x21, 0xaa]

/-- An IE buffer starting with the UE security capability identifier 0x2e
(length 1, one value byte) followed by a complete RAND IE. -/
def pduUESecThenRand : List Nat := 0x2e :: 0x01 :: 0x00 :: 0x21 :: List.replicate 16 7

/-- A UE context with the security wrapper already stripped. -/
def ueFlag : UE := { ue0 with securityHeaderParsed := true }

/-- The 16-byte AUTN value 0x00112233445566778899AABBCCDDEEFF. -/
def autnC7 : List Nat :=
  [0x00, 0x11, 0x22, 0x33, 0x44, 0x55, 0x66, 0x77, 0x88, 0x99, 0xaa, 0xbb, 0xcc, 0xdd, 0xee, 0xff]

/-- A UE context holding a full 16-byte RES*. -/
def ueRes16 : UE :=
  { ue0 with AuthParam :=
    { authParam0 with RESstar := [0, 1, 2, 3, 4, 5, 6, 7, 8, 9, 10, 11, 12, 13, 14, 15] } }

/-! ## Support lemmas -/

/-- A digest is always 32 bytes. -/
theorem digestOf_length (st : Hash8) : (digestOf st).length = 32 := by
  simp [digestOf, be32]

/-- SHA-256 always produces 32 bytes. -/
theorem sha256_length (msg : List Nat) : (sha256 msg).length = 32 := by
  unfold sha256
  exact digestOf_length _

/-- HMAC-SHA-256 always produces 32 bytes. -/
theorem hmacSHA256_length (key msg : List Nat) : (hmacSHA256 key msg).length = 32 := by
  unfold hmacSHA256
  exact sha256_length _

/-- For a nonnegative argument, Go's `%03d` agrees with the specification's
zero-padding to 3 decimal digits. -/
theorem fmt03d_nonneg (n : Int) (h : 0 ≤ n) : fmt03d n = pad3 n.toNat := by
  unfold fmt03d pad3
  rw [if_neg (by omega)]

/-- C2: for all integers mcc, mnc (nonnegative, as country and network codes
are) and all byte strings rand, res, ck, ik, `ComputeRESstar` returns exactly
the least-significant 16 bytes of HMAC-SHA-256 keyed with CK ‖ IK over
S = 0x6B ‖ P0 ‖ L0 ‖ rand ‖ L1 ‖ res ‖ L2, where P0 is the ASCII string
`5G:mnc<3-digit mnc>.mcc<3-digit mcc>.3gppnetwork.org` and each Li is the
big-endian 16-bit length of the preceding parameter; the HMAC output is 32
bytes and the result is its last 16 bytes (`drop 16`), not the first 16. -/
theorem ComputeRESstar_matches_spec (mcc mnc : Int) (rand res ck ik : List Nat)
    (hmcc : 0 ≤ mcc) (hmnc : 0 ≤ mnc) :
    ComputeRESstar mcc mnc rand res ck ik = specRESstar mcc.toNat mnc.toNat rand res ck ik ∧
    (hmacSHA256 (ck ++ ik) (specSInput mcc.toNat mnc.toNat rand res)).length = 32 ∧
    specRESstar mcc.toNat mnc.toNat rand res ck ik =
      (hmacSHA256 (ck ++ ik) (specSInput mcc.toNat mnc.toNat rand res)).drop 16 := by
  have hsn : charBytes (sprintf5GSNN mnc mcc) = specServingNetworkName mcc.toNat mnc.toNat := by
    unfold sprintf5GSNN specServingNetworkName
    rw [fmt03d_nonneg mnc hmnc, fmt03d_nonneg mcc hmcc]
  refine ⟨?_, hmacSHA256_length _ _, ?_⟩
  · unfold ComputeRESstar specRESstar specSInput lastNBytes
    rw [hsn]
    simp [List.append_assoc]
  · unfold specRESstar lastNBytes
    rw [hmacSHA256_length]

/-- C2 witness: the refinement instantiated at mcc = mnc = 1 and empty byte
strings. -/
theorem ComputeRESstar_matches_spec_witness :
    ComputeRESstar 1 1 [] [] [] [] = specRESstar (Int.toNat 1) (Int.toNat 1) [] [] [] [] ∧
    (hmacSHA256 ([] ++ []) (specSInput (Int.toNat 1) (Int.toNat 1) [] [])).length = 32 ∧
    specRESstar (Int.toNat 1) (Int.toNat 1) [] [] [] [] =
      (hmacSHA256 ([] ++ []) (specSInput (Int.toNat 1) (Int.toNat 1) [] [])).drop 16 :=
  ComputeRESstar_matches_spec 1 1 [] [] [] [] (by decide) (by decide)

/-- Writing `src` over the front of a zero array of size at least `src.length`
yields `src` zero-padded to the array size. -/
theorem copyInto_replicate (src : List Nat) : ∀ n, src.length ≤ n →
    copyInto (List.replicate n 0) src = some (src ++ List.replicate (n - src.length) 0) := by
  induction src with
  | nil => intro n _; simp [copyInto]
  | cons v ss ih =>
    intro n h
    cases n with
    | zero => simp at h
    | succ m =>
      simp only [List.replicate_succ, copyInto]
      rw [ih m (by simpa using h)]
      simp only [Option.some.injEq, List.cons_append, List.cons.injEq, true_and]
      have : m + 1 - (v :: ss).length = m - ss.length := by simp
      rw [this]

/-- A zero replicate reads as zero at every in-range position. -/
theorem getD_replicate_zero (k i d : Nat) (h : i < k) :
    (List.replicate k (0 : Nat)).getD i d = 0 := by
  rw [List.getD_eq_getElem _ _ (by simpa using h)]
  simp

/-- C8: for a UE whose RES* holds 16 bytes, `MakeAuthenticationResponse`
emits the 3-byte plain MM header 0x7e 0x00 0x57, the RES* IE tag 0x2d, a
length byte 16, then exactly the 16 RES* bytes, 21 bytes in total. -/
theorem MakeAuthenticationResponse_layout (ue : UE) (h : ue.AuthParam.RESstar.length = 16) :
    MakeAuthenticationResponse ue =
      some ([0x7e, 0x00, 0x57, 0x2d, 16] ++ ue.AuthParam.RESstar) ∧
    ([0x7e, 0x00, 0x57, 0x2d, 16] ++ ue.AuthParam.RESstar).length = 21 := by
  have hc := copyInto_replicate ue.AuthParam.RESstar 16 (by omega)
  constructor
  · unfold MakeAuthenticationResponse encAuthParamRes
    rw [hc]
    simp [h]
  · simp [h]

/-- C8 witness: the layout at a concrete 16-byte RES*. -/
theorem MakeAuthenticationResponse_layout_witness :
    MakeAuthenticationResponse ueRes16 =
      some ([0x7e, 0x00, 0x57, 0x2d, 16] ++ ueRes16.AuthParam.RESstar) ∧
    ([0x7e, 0x00, 0x57, 0x2d, 16] ++ ueRes16.AuthParam.RESstar).length = 21 :=
  MakeAuthenticationResponse_layout ueRes16 (by decide)

/-- C10: for a UE whose RES* holds fewer than 16 bytes (including the empty
pre-authentication value), `MakeAuthenticationResponse` still emits the full
21-byte PDU with length byte 16, zero-padding the value to 16 bytes: every
value byte at a position at or beyond the RES* length is zero. -/
theorem MakeAuthenticationResponse_pads (ue : UE) (h : ue.AuthParam.RESstar.length < 16) :
    MakeAuthenticationResponse ue =
      some ([0x7e, 0x00, 0x57, 0x2d, 16] ++ (ue.AuthParam.RESstar ++
        List.replicate (16 - ue.AuthParam.RESstar.length) 0)) ∧
    ([0x7e, 0x00, 0x57, 0x2d, 16] ++ (ue.AuthParam.RESstar ++
        List.replicate (16 - ue.AuthParam.RESstar.length) 0)).length = 21 ∧
    (∀ i, ue.AuthParam.RESstar.length ≤ i → i < 16 →
      (ue.AuthParam.RESstar ++
        List.replicate (16 - ue.AuthParam.RESstar.length) 0).getD i 1 = 0) := by
  have hc := copyInto_replicate ue.AuthParam.RESstar 16 (by omega)
  refine ⟨?_, ?_, ?_⟩
  · have hlen : (ue.AuthParam.RESstar ++
        List.replicate (16 - ue.AuthParam.RESstar.length) 0).length = 16 := by
      simp
      omega
    unfold MakeAuthenticationResponse encAuthParamRes
    rw [hc]
    simp [hlen]
  · simp
    omega
  · intro i h1 h2
    rw [List.getD_append_right _ _ _ _ h1]
    exact getD_replicate_zero _ _ _ (by omega)

/-- C10 witness: the padded layout at the empty pre-authentication RES*. -/
theorem MakeAuthenticationResponse_pads_witness :
    MakeAuthenticationResponse ue0 =
      some ([0x7e, 0x00, 0x57, 0x2d, 16] ++ (ue0.AuthParam.RESstar ++
        List.replicate (16 - ue0.AuthParam.RESstar.length) 0)) ∧
    ([0x7e, 0x00, 0x57, 0x2d, 16] ++ (ue0.AuthParam.RESstar ++
        List.replicate (16 - ue0.AuthParam.RESstar.length) 0)).length = 21 ∧
    (∀ i, ue0.AuthParam.RESstar.length ≤ i → i < 16 →
      (ue0.AuthParam.RESstar ++
        List.replicate (16 - ue0.AuthParam.RESstar.length) 0).getD i 1 = 0) :=
  MakeAuthenticationResponse_pads ue0 (by decide)

/-- A plain (top bit clear) tag byte advances past itself and dispatches. -/
theorem decIEStep_plain (st : AuthParam) (b : Nat) (rest : List Nat)
    (h : ¬ b &&& 0x80 = 0x80) :
    decIEStep st (b :: rest) = dispatchIE b st rest := by
  simp [decIEStep, h]

/-- The IE loop on an empty buffer exits immediately. -/
theorem decIELoop_nil (fuel : Nat) (st : AuthParam) :
    decIELoop fuel st [] = some (st, []) := by
  cases fuel <;> simp [decIELoop]

/-- C7: a length-16 AUTN information element splits into SEQ⊕AK (first 6
bytes), AMF (next 2 bytes), MAC (last 8 bytes), consuming the length octet
and the 16 value bytes; the same holds dispatched through the IE loop step
on tag 0x20. -/
theorem decAuthParamAUTN_split16 (st : AuthParam) (v rest : List Nat) (h : v.length = 16) :
    decAuthParamAUTN st (16 :: (v ++ rest)) =
      some ({ st with autn := v, seqxorak := v.take 6, amf := (v.drop 6).take 2,
                      mac := v.drop 8 }, rest) ∧
    decIEStep st (0x20 :: 16 :: (v ++ rest)) =
      some ({ st with autn := v, seqxorak := v.take 6, amf := (v.drop 6).take 2,
                      mac := v.drop 8 }, rest) := by
  have hlen : 16 ≤ (v ++ rest).length := by simp [h]
  have e1 : (v ++ rest).take 16 = v := List.take_left' h
  have e2 : (v ++ rest).take 6 = v.take 6 := List.take_append_of_le_length (by omega)
  have e3 : (v ++ rest).drop 6 = v.drop 6 ++ rest := List.drop_append_of_le_length (by omega)
  have e4 : (v.drop 6 ++ rest).take 2 = (v.drop 6).take 2 :=
    List.take_append_of_le_length (by simp [h])
  have e5 : (v ++ rest).drop 8 = v.drop 8 ++ rest := List.drop_append_of_le_length (by omega)
  have e6 : (v.drop 8 ++ rest).take 8 = (v.drop 8).take 8 :=
    List.take_append_of_le_length (by simp [h])
  have e7 : (v.drop 8).take 8 = v.drop 8 := List.take_of_length_le (by simp [h])
  have e8 : (v ++ rest).drop 16 = rest := List.drop_left' h
  have hmain : decAuthParamAUTN st (16 :: (v ++ rest)) =
      some ({ st with autn := v, seqxorak := v.take 6, amf := (v.drop 6).take 2,
                      mac := v.drop 8 }, rest) := by
    simp only [decAuthParamAUTN]
    rw [if_pos ⟨hlen, hlen⟩, e1, e2, e3, e4, e5, e6, e7, e8]
  refine ⟨hmain, ?_⟩
  rw [decIEStep_plain st 0x20 _ (by decide)]
  unfold dispatchIE
  norm_num [ieiKnown]
  exact hmain

/-- C7 witness: the split of AUTN 0x00112233445566778899AABBCCDDEEFF into
SEQ⊕AK 001122334455, AMF 6677, MAC 8899AABBCCDDEEFF. -/
theorem decAuthParamAUTN_split16_witness :
    decAuthParamAUTN authParam0 (16 :: (autnC7 ++ [])) =
      some ({ authParam0 with autn := autnC7,
                              seqxorak := [0x00, 0x11, 0x22, 0x33, 0x44, 0x55],
                              amf := [0x66, 0x77],
                              mac := [0x88, 0x99, 0xaa, 0xbb, 0xcc, 0xdd, 0xee, 0xff] }, []) ∧
    decIEStep authParam0 (0x20 :: 16 :: (autnC7 ++ [])) =
      some ({ authParam0 with autn := autnC7,
                              seqxorak := [0x00, 0x11, 0x22, 0x33, 0x44, 0x55],
                              amf := [0x66, 0x77],
                              mac := [0x88, 0x99, 0xaa, 0xbb, 0xcc, 0xdd, 0xee, 0xff] }, []) :=
  decAuthParamAUTN_split16 authParam0 autnC7 [] (by decide)

/-- C5: an IE identifier (after compact-tag extraction) with no dispatch
entry causes the whole remaining buffer to be discarded: the step yields the
empty buffer unchanged-state, and the parse loop terminates with nothing
after the unknown identifier parsed. -/
theorem unknown_iei_discards (st : AuthParam) (b : Nat) (rest : List Nat)
    (h : (if b &&& 0x80 = 0x80 then b >>> 4 else b) ∉ [0xe, 0x20, 0x21, 0x36]) :
    decIEStep st (b :: rest) = some (st, []) ∧
    decInformationElement st (b :: rest) = some (st, []) := by
  rw [List.mem_cons, List.mem_cons, List.mem_cons, List.mem_singleton] at h
  push_neg at h
  obtain ⟨h1, h2, h3, h4⟩ := h
  have hstep : decIEStep st (b :: rest) = some (st, []) := by
    by_cases hb : b &&& 0x80 = 0x80
    · rw [if_pos hb] at h1 h2 h3 h4
      simp only [decIEStep, if_pos hb]
      simp only [dispatchIE]
      by_cases hk : ieiKnown (b >>> 4)
      · rw [if_pos hk, if_neg h1, if_neg h2, if_neg h3, if_neg h4]
      · rw [if_neg hk]
        norm_num
    · rw [if_neg hb] at h1 h2 h3 h4
      rw [decIEStep_plain st b rest hb]
      simp only [dispatchIE]
      by_cases hk : ieiKnown b
      · rw [if_pos hk, if_neg h1, if_neg h2, if_neg h3, if_neg h4]
      · rw [if_neg hk]
        norm_num
  refine ⟨hstep, ?_⟩
  unfold decInformationElement
  simp only [List.length_cons, decIELoop]
  rw [if_neg (by simp)]
  rw [hstep]
  exact decIELoop_nil _ _

/-- C5 witness: identifier 0x2d (known by name but with no dispatch entry)
discards the rest of the buffer. -/
theorem unknown_iei_discards_witness :
    decIEStep authParam0 [0x2d, 1, 2] = some (authParam0, []) ∧
    decInformationElement authParam0 [0x2d, 1, 2] = some (authParam0, []) :=
  unknown_iei_discards authParam0 0x2d [1, 2] (by decide)

/-- C6 counterexample: an IE buffer headed by identifier 0x2e (UE security
capability) followed by a well-formed RAND IE.  The IE loop does not invoke
the length-prefixed UE-security-capability decoder and does not continue
with the RAND IE: identifier 0x2e has no case in the dispatch switch, so the
whole remaining buffer is discarded with the state unchanged (the RAND field
stays empty). -/
theorem uesec_iei_discards_buffer :
    decInformationElement authParam0 pduUESecThenRand = some (authParam0, []) ∧
    authParam0.rand = [] :=
  ⟨by decide, rfl⟩

/-- C6 amended: in the IE loop, identifier 0x2e discards the remaining
buffer (state unchanged); the length-prefixed `decUESecurityCapability`
(one length octet, then that many value bytes) is invoked only directly by
the Security Mode Command decoder, which afterwards continues with the IE
loop on the remaining bytes. -/
theorem uesec_handled_only_by_smc :
    (∀ (st : AuthParam) (rest : List Nat), decIEStep st (0x2e :: rest) = some (st, [])) ∧
    (∀ (st : AuthParam) (l : Nat) (rest : List Nat), l ≤ rest.length →
      decUESecurityCapability st (l :: rest) = some (st, rest.drop l)) ∧
    (∀ (st : AuthParam) (alg ksi l : Nat) (rest : List Nat), l ≤ rest.length →
      decSecurityModeCommand st (alg :: ksi :: l :: rest) =
        decInformationElement st (rest.drop l)) := by
  refine ⟨?_, ?_, ?_⟩
  · intro st rest
    rw [decIEStep_plain st 0x2e rest (by decide)]
    simp only [dispatchIE]
    norm_num [ieiKnown]
  · intro st l rest h
    simp only [decUESecurityCapability]
    rw [if_pos h]
  · intro st alg ksi l rest h
    simp only [decSecurityModeCommand, decNASSecurityAlgorithms, decngKSI,
      decUESecurityCapability]
    rw [if_pos h]

/-- C6 amended witness: the three behaviors at concrete buffers. -/
theorem uesec_handled_only_by_smc_witness :
    decIEStep authParam0 (0x2e :: [0x01, 0x00, 0x21]) = some (authParam0, []) ∧
    decUESecurityCapability authParam0 (2 :: [7, 8, 9]) = some (authParam0, [9]) ∧
    decSecurityModeCommand authParam0 (0 :: 1 :: 2 :: [7, 8, 9]) =
      decInformationElement authParam0 [9] :=
  ⟨uesec_handled_only_by_smc.1 authParam0 [0x01, 0x00, 0x21],
   uesec_handled_only_by_smc.2.1 authParam0 2 [7, 8, 9] (by decide),
   uesec_handled_only_by_smc.2.2 authParam0 0 1 2 [7, 8, 9] (by decide)⟩

/-- The IMEISV-request decoder consumes exactly its one value byte. -/
theorem decIMEISVRequest_shrinks (st st2 : AuthParam) (pdu pdu2 : List Nat)
    (h : decIMEISVRequest st pdu = some (st2, pdu2)) : pdu2.length < pdu.length := by
  cases pdu with
  | nil => simp [decIMEISVRequest] at h
  | cons x r =>
    simp only [decIMEISVRequest, Option.some.injEq, Prod.mk.injEq] at h
    rw [← h.2]
    simp

/-- A successful AUTN decode consumes the length octet and at least zero
value bytes, strictly shortening the buffer. -/
theorem decAuthParamAUTN_shrinks (st st2 : AuthParam) (pdu pdu2 : List Nat)
    (h : decAuthParamAUTN st pdu = some (st2, pdu2)) : pdu2.length < pdu.length := by
  cases pdu with
  | nil => simp [decAuthParamAUTN] at h
  | cons l r =>
    simp only [decAuthParamAUTN] at h
    by_cases hc : l ≤ r.length ∧ 16 ≤ r.length
    · rw [if_pos hc] at h
      simp only [Option.some.injEq, Prod.mk.injEq] at h
      rw [← h.2]
      simp only [List.length_drop, List.length_cons]
      omega
    · rw [if_neg hc] at h
      exact absurd h (by simp)

/-- A successful RAND decode consumes 16 bytes. -/
theorem decAuthParamRAND_shrinks (st st2 : AuthParam) (pdu pdu2 : List Nat)
    (h : decAuthParamRAND st pdu = some (st2, pdu2)) : pdu2.length < pdu.length := by
  unfold decAuthParamRAND at h
  by_cases hc : 16 ≤ pdu.length
  · rw [if_pos hc] at h
    simp only [Option.some.injEq, Prod.mk.injEq] at h
    rw [← h.2]
    simp only [List.length_drop]
    omega
  · rw [if_neg hc] at h
    exact absurd h (by simp)

/-- What one dispatch can do to the buffer: strictly shrink it, empty it, or
(identifier 0x36 only) leave it unchanged. -/
theorem dispatchIE_cases (iei0 : Nat) (st : AuthParam) (pdu : List Nat)
    (st2 : AuthParam) (pdu2 : List Nat)
    (h : dispatchIE iei0 st pdu = some (st2, pdu2)) :
    pdu2.length < pdu.length ∨ pdu2 = [] ∨ (iei0 = 0x36 ∧ pdu2 = pdu) := by
  simp only [dispatchIE] at h
  by_cases hk : ieiKnown iei0 = true
  · rw [if_pos hk] at h
    by_cases h0 : iei0 = 0xe
    · rw [if_pos h0] at h
      exact Or.inl (decIMEISVRequest_shrinks _ _ _ _ h)
    · rw [if_neg h0] at h
      by_cases h1 : iei0 = 0x20
      · rw [if_pos h1] at h
        exact Or.inl (decAuthParamAUTN_shrinks _ _ _ _ h)
      · rw [if_neg h1] at h
        by_cases h2 : iei0 = 0x21
        · rw [if_pos h2] at h
          exact Or.inl (decAuthParamRAND_shrinks _ _ _ _ h)
        · rw [if_neg h2] at h
          by_cases h3 : iei0 = 0x36
          · rw [if_pos h3] at h
            simp only [Option.some.injEq, Prod.mk.injEq] at h
            exact Or.inr (Or.inr ⟨h3, h.2.symm⟩)
          · rw [if_neg h3] at h
            simp only [Option.some.injEq, Prod.mk.injEq] at h
            exact Or.inr (Or.inl h.2.symm)
  · rw [if_neg hk] at h
    norm_num at h
    exact Or.inr (Or.inl h.2)

/-- A byte with the top bit set cannot have 0x36 as its high nibble: bit 3 of
0x36 is clear while bit 7 of the byte is set. -/
theorem compact_tag_not_0x36 (b : Nat) (hb : b &&& 0x80 = 0x80) : b >>> 4 ≠ 0x36 := by
  intro h36
  have e128 : Nat.testBit 128 7 = true := by decide
  have h1 : Nat.testBit b 7 = true := by
    have hcong : (b &&& 128).testBit 7 = (128 : Nat).testBit 7 := by rw [hb]
    rw [Nat.testBit_and, e128, Bool.and_true] at hcong
    exact hcong
  have e36 : Nat.testBit 0x36 3 = false := by decide
  have hcong2 : (b >>> 4).testBit 3 = (0x36 : Nat).testBit 3 := by rw [h36]
  rw [Nat.testBit_shiftRight, e36] at hcong2
  norm_num at hcong2
  rw [h1] at hcong2
  exact Bool.noConfusion hcong2

/-- Every successful iteration of the IE loop strictly shortens the residual
buffer (supporting lemma; the claim-level statement follows). -/
theorem decIEStep_consume (st : AuthParam) (pdu : List Nat)
    (st2 : AuthParam) (pdu2 : List Nat) (h : decIEStep st pdu = some (st2, pdu2)) :
    pdu2.length < pdu.length := by
  cases pdu with
  | nil => simp [decIEStep] at h
  | cons b rest =>
    by_cases hb : b &&& 0x80 = 0x80
    · simp only [decIEStep, if_pos hb] at h
      rcases dispatchIE_cases _ _ _ _ _ h with h1 | h1 | h1
      · simpa using h1
      · simp [h1]
      · exact absurd h1.1 (compact_tag_not_0x36 b hb)
    · rw [decIEStep_plain st b rest hb] at h
      rcases dispatchIE_cases _ _ _ _ _ h with h1 | h1 | h1
      · simp only [List.length_cons]
        omega
      · simp [h1]
      · rw [h1.2]
        simp

/-- C9: every successful iteration of the `decInformationElement` loop
strictly decreases the length of the residual buffer: the compact IMEISV tag
consumes the masked tag/value byte, every plain-tag path first advances one
byte past the tag, and every unrecognized or undispatched identifier
replaces the buffer with the empty buffer (the no-op 0x36 case only ever
runs on a plain tag, whose tag byte was already consumed); hence the loop
terminates on every input buffer. -/
theorem decIEStep_strictly_shrinks (st : AuthParam) (pdu : List Nat)
    (st2 : AuthParam) (pdu2 : List Nat) (h : decIEStep st pdu = some (st2, pdu2)) :
    pdu2.length < pdu.length :=
  decIEStep_consume st pdu st2 pdu2 h

/-- Run with budget at least the buffer length — as `decInformationElement`
runs it — the IE loop only ever returns with an exhausted buffer, so the
zero-budget base case coincides with the loop exit of the source. -/
theorem decIELoop_ends_empty (fuel : Nat) : ∀ (st : AuthParam) (pdu : List Nat)
    (st2 : AuthParam) (pdu2 : List Nat), pdu.length ≤ fuel →
    decIELoop fuel st pdu = some (st2, pdu2) → pdu2 = [] := by
  induction fuel with
  | zero =>
    intro st pdu st2 pdu2 hle h
    have hnil : pdu = [] := by
      cases pdu with
      | nil => rfl
      | cons a b => simp at hle
    subst hnil
    simp only [decIELoop, Option.some.injEq, Prod.mk.injEq] at h
    exact h.2.symm
  | succ n ih =>
    intro st pdu st2 pdu2 hle h
    simp only [decIELoop] at h
    by_cases hnil : pdu = []
    · rw [if_pos hnil] at h
      simp only [Option.some.injEq, Prod.mk.injEq] at h
      rw [← h.2, hnil]
    · rw [if_neg hnil] at h
      cases hstep : decIEStep st pdu with
      | none => rw [hstep] at h; exact Option.noConfusion h
      | some p =>
        obtain ⟨st3, pdu3⟩ := p
        rw [hstep] at h
        have hlt := decIEStep_consume st pdu st3 pdu3 hstep
        exact ih st3 pdu3 st2 pdu2 (by omega) h

/-- Every successful `decInformationElement` consumes the whole buffer. -/
theorem decInformationElement_ends_empty (st : AuthParam) (pdu : List Nat)
    (st2 : AuthParam) (pdu2 : List Nat)
    (h : decInformationElement st pdu = some (st2, pdu2)) : pdu2 = [] :=
  decIELoop_ends_empty pdu.length st pdu st2 pdu2 (Nat.le_refl _) h

/-- C9 witness: the no-op additional-security-information tag still shrinks
the buffer by its tag byte. -/
theorem decIEStep_strictly_shrinks_witness :
    decIEStep authParam0 [0x36, 5] = some (authParam0, [5]) ∧
    ([5] : List Nat).length < ([0x36, 5] : List Nat).length :=
  ⟨by decide, decIEStep_strictly_shrinks authParam0 [0x36, 5] authParam0 [5] (by decide)⟩

/-- Unfolding: `Decode` on a buffer with fewer than 2 header bytes aborts. -/
theorem Decode_nil (env : MilenageEnv) (ue : UE) : Decode env ue [] = none := by
  rw [Decode.eq_def]

/-- Unfolding: `Decode` on a 1-byte buffer aborts. -/
theorem Decode_one (env : MilenageEnv) (ue : UE) (x : Nat) : Decode env ue [x] = none := by
  rw [Decode.eq_def]

/-- Unfolding: `Decode` on a buffer with both header bytes present. -/
theorem Decode_cons2 (env : MilenageEnv) (ue : UE) (e s : Nat) (rest : List Nat) :
    Decode env ue (e :: s :: rest) =
      if s ≠ 0 ∧ ue.securityHeaderParsed = false then
        match rest with
        | _ :: _ :: _ :: _ :: _ :: rest2 =>
          Decode env { ue with securityHeaderParsed := true } rest2
        | _ => none
      else decodeBody env ue rest := by
  rw [Decode.eq_def]

/-- The message-dispatch tail of `Decode` clears `securityHeaderParsed` in
every result it returns. -/
theorem decodeBody_clears_flag (env : MilenageEnv) (ue : UE) (pdu : List Nat)
    (mt : Nat) (ue2 : UE) (rest : List Nat)
    (h : decodeBody env ue pdu = some (mt, ue2, rest)) :
    ue2.securityHeaderParsed = false := by
  cases pdu with
  | nil => simp [decodeBody] at h
  | cons b r =>
    simp only [decodeBody] at h
    split at h
    · exact absurd h (by simp)
    · simp only [Option.some.injEq, Prod.mk.injEq] at h
      rw [← h.2.1]

/-- A decode entered with the wrapper already stripped clears the flag in
every result it returns. -/
theorem Decode_flagTrue_clears (env : MilenageEnv) (ue : UE) (pdu : List Nat)
    (mt : Nat) (ue2 : UE) (rest : List Nat)
    (hs : ue.securityHeaderParsed = true)
    (h : Decode env ue pdu = some (mt, ue2, rest)) :
    ue2.securityHeaderParsed = false := by
  cases pdu with
  | nil => rw [Decode_nil] at h; exact Option.noConfusion h
  | cons x rest0 =>
    cases rest0 with
    | nil => rw [Decode_one] at h; exact Option.noConfusion h
    | cons s r =>
      rw [Decode_cons2, if_neg (by simp [hs])] at h
      exact decodeBody_clears_flag _ _ _ _ _ _ h

/-- C3: (1) a non-plain security header with the wrapper not yet stripped
consumes exactly the 2 header bytes plus 4 MAC bytes plus 1 sequence-number
byte and recurses with `securityHeaderParsed = true`; (2) the recursive call,
seeing the flag, consumes only its 2 header bytes regardless of a second
non-plain security header byte — no further 5 bytes; (3) a top-level decode
(entered with the flag false) always returns a UE whose flag is false again,
so each top-level decode starts fresh. -/
theorem Decode_security_header_handling :
    (∀ (env : MilenageEnv) (ue : UE) (e s m1 m2 m3 m4 sq : Nat) (rest : List Nat),
      ue.securityHeaderParsed = false → s ≠ 0 →
      Decode env ue (e :: s :: m1 :: m2 :: m3 :: m4 :: sq :: rest) =
        Decode env { ue with securityHeaderParsed := true } rest) ∧
    (∀ (env : MilenageEnv) (ue : UE) (e s : Nat) (rest : List Nat),
      ue.securityHeaderParsed = true →
      Decode env ue (e :: s :: rest) = decodeBody env ue rest) ∧
    (∀ (env : MilenageEnv) (ue : UE) (pdu : List Nat) (mt : Nat) (ue2 : UE) (rest : List Nat),
      ue.securityHeaderParsed = false →
      Decode env ue pdu = some (mt, ue2, rest) →
      ue2.securityHeaderParsed = false) := by
  refine ⟨?_, ?_, ?_⟩
  · intro env ue e s m1 m2 m3 m4 sq rest hflag hs
    rw [Decode_cons2, if_pos ⟨hs, hflag⟩]
  · intro env ue e s rest hs
    rw [Decode_cons2, if_neg (by simp [hs])]
  · intro env ue pdu mt ue2 rest hflag h
    cases pdu with
    | nil => rw [Decode_nil] at h; exact Option.noConfusion h
    | cons x rest0 =>
      cases rest0 with
      | nil => rw [Decode_one] at h; exact Option.noConfusion h
      | cons s r =>
        by_cases hs : s ≠ 0
        · rw [Decode_cons2, if_pos ⟨hs, hflag⟩] at h
          split at h
          · exact Decode_flagTrue_clears _ _ _ _ _ _ rfl h
          · exact absurd h (by simp)
        · have hs0 : s = 0 := by omega
          rw [Decode_cons2, if_neg (by simp [hs0])] at h
          exact decodeBody_clears_flag _ _ _ _ _ _ h

/-- C3 witness: a concrete integrity-protected PDU is stripped once (7 bytes),
the recursive call tolerates a second non-plain header byte without consuming
5 more bytes, and a completed plain decode leaves the flag false. -/
theorem Decode_security_header_handling_witness :
    Decode milEnv0 ue0 [0x7e, 0x01, 0xde, 0xad, 0xbe, 0xef, 0x07, 0x7e, 0x02, 0x41, 0x99] =
      Decode milEnv0 ueFlag [0x7e, 0x02, 0x41, 0x99] ∧
    Decode milEnv0 ueFlag [0x7e, 0x02, 0x41, 0x99] = decodeBody milEnv0 ueFlag [0x41, 0x99] ∧
    ue0.securityHeaderParsed = false :=
  ⟨Decode_security_header_handling.1 milEnv0 ue0 0x7e 0x01 0xde 0xad 0xbe 0xef 0x07
      [0x7e, 0x02, 0x41, 0x99] rfl (by decide),
   Decode_security_header_handling.2.1 milEnv0 ueFlag 0x7e 0x02 [0x41, 0x99] rfl,
   Decode_security_header_handling.2.2 milEnv0 ue0 [0x7e, 0x00, 0x41] 0x41 ue0 [] rfl (by decide)⟩

/-- C4 counterexample: decoding an Authentication Request whose RAND IE is
followed by 1 byte where 16 are required yields `none`, the model of a Go
slice-bounds abort that propagates out of `Decode` uncaught.  `Decode`
returns only the message type (`func (ue *UE) Decode(pdu *[]byte, length
int) (msgType int)`): there is no error value in its signature, so the
failure reaches the caller as a runtime abort, not as an explicit typed
error value as the claim states. -/
theorem Decode_truncated_rand_aborts : Decode milEnv0 ue0 pduShortRand = none := by decide

/-- C4 amended: on every buffer shorter than a required field the decoder
fails fast — it aborts without reading past the end of the buffer and
without partial recovery — but the abort is a bounds-check runtime abort
(modelled `none`) propagating out of `Decode`, which has no error result:
(1) a RAND decode with fewer than 16 bytes aborts; (2) a length octet
announcing more bytes than remain makes the ABBA decode abort; (3) the abort
propagates through the IE loop, `decAuthenticationRequest` and `Decode`. -/
theorem truncated_buffer_fail_fast :
    (∀ (st : AuthParam) (pdu : List Nat), pdu.length < 16 →
      decAuthParamRAND st pdu = none) ∧
    (∀ (st : AuthParam) (l : Nat) (rest : List Nat), rest.length < l →
      decABBA st (l :: rest) = none) ∧
    (∀ (env : MilenageEnv) (ue : UE) (ksi : Nat) (rest : List Nat),
      ue.securityHeaderParsed = false → rest.length < 16 →
      Decode env ue (0x7e :: 0x00 :: 0x56 :: ksi :: 0x00 :: 0x21 :: rest) = none) := by
  have hrand : ∀ (st : AuthParam) (pdu : List Nat), pdu.length < 16 →
      decAuthParamRAND st pdu = none := by
    intro st pdu h
    unfold decAuthParamRAND
    rw [if_neg (by omega)]
  refine ⟨hrand, ?_, ?_⟩
  · intro st l rest h
    simp only [decABBA]
    rw [if_neg (by omega)]
  · intro env ue ksi rest hflag h
    have hie : decInformationElement ue.AuthParam (0x21 :: rest) = none := by
      unfold decInformationElement
      simp only [List.length_cons, decIELoop]
      rw [if_neg (by simp)]
      rw [decIEStep_plain _ _ _ (by decide)]
      have hd : dispatchIE 0x21 ue.AuthParam rest = none := by
        simp only [dispatchIE]
        norm_num [ieiKnown]
        exact hrand _ _ h
      rw [hd]
    have hreq : decAuthenticationRequest env ue (ksi :: 0x00 :: 0x21 :: rest) = none := by
      simp only [decAuthenticationRequest, decngKSI, decABBA]
      rw [if_pos (Nat.zero_le _)]
      simp only [List.drop_zero]
      rw [hie]
    rw [Decode_cons2, if_neg (by simp [hflag])]
    simp only [decodeBody]
    rw [if_pos trivial]
    rw [hreq]

/-- C4 amended witness: the three abort behaviors at concrete buffers. -/
theorem truncated_buffer_fail_fast_witness :
    decAuthParamRAND authParam0 [0xaa] = none ∧
    decABBA authParam0 [5, 1] = none ∧
    Decode milEnv0 ue0 (0x7e :: 0x00 :: 0x56 :: 0x00 :: 0x00 :: 0x21 :: [0xaa]) = none :=
  ⟨truncated_buffer_fail_fast.1 authParam0 [0xaa] (by decide),
   truncated_buffer_fail_fast.2.1 authParam0 5 [1] (by decide),
   truncated_buffer_fail_fast.2.2 milEnv0 ue0 0x00 [0xaa] rfl (by decide)⟩

/-- C1 (exhibit of the divergence): decoding a well-formed Authentication
Request whose received MAC [1,…,8] differs from the computed MACA (all
zeros under `milEnv0`) leaves RES* unwritten — but `Decode` completes
normally, returning the message type and the updated UE exactly as on
success, with no error indication of any kind.  The source marks the spot
with the comment `// need response for error.` and prints a diagnostic
line only, so the mismatch is invisible to the caller. -/
theorem mac_mismatch_silently_ignored :
    Decode milEnv0 ue0 pduAuthReqBadMac = some (0x56, ue1, []) ∧
    ue1.AuthParam.RESstar = [] :=
  ⟨by decide, rfl⟩
